import Mathlib

/-!
Upload handler (`api/upload.js`).

A shallow embedding of the single request handler of the repository and the
properties of its specification.

The handler talks to three external services (the multipart form parser, the
relational store and the object store).  Their answers are inputs of the model
(`World`); what the handler asks of them is recorded, in order, in a trace of
`Effect`s, so that statements such as "no upload is attempted" can be expressed.
JavaScript exceptions are modelled with `Except JsError`: the trace produced
before a `throw` is kept, as it is in the running program.
-/

namespace Upload

/-! ## JavaScript string primitives used by the handler -/

/-- Pieces of a character list between occurrences of the separator `c`
(`String.prototype.split` with a one-character separator; never empty). -/
def splitChars (c : Char) : List Char → List (List Char)
  | [] => [[]]
  | x :: xs =>
    if x = c then [] :: splitChars c xs
    else
      match splitChars c xs with
      | [] => [[x]]
      | piece :: pieces => (x :: piece) :: pieces

/-- The call `s.split(sep)` for a separator of one character. -/
def split (s : String) (sep : Char) : List String :=
  (splitChars sep s.data).map String.mk

/-- The call `arr.pop()`: the last element of the array, `undefined` (`none`) when it
is empty. -/
def pop (arr : List String) : Option String :=
  arr.getLast?

/-- A `${...}` substitution of a value that may be `undefined`. -/
def interpolate : Option String → String
  | some s => s
  | none => "undefined"

/-- The call `s.includes(sub)`: some suffix of `s` starts with `sub`. -/
def includes (s sub : String) : Bool :=
  s.data.tails.any fun t => sub.data.isPrefixOf t

/-! ## Data model -/

/-- A thrown JavaScript error; only its `message` is ever read. -/
structure JsError where
  message : String
  deriving DecidableEq, Repr

/-- The `error` member of a database answer. -/
structure PostgrestError where
  message : String
  deriving DecidableEq, Repr

/-- A value of the parsed `fields` object: absent, a bare string, or an array of strings. -/
inductive FieldValue where
  | undefined
  | scalar (v : String)
  | array (vs : List String)
  deriving DecidableEq, Repr

/-- The eight properties of the parsed `fields` object that the handler reads. -/
structure Fields where
  email : FieldValue
  orderNumber : FieldValue
  fullName : FieldValue
  vin : FieldValue
  make : FieldValue
  model : FieldValue
  year : FieldValue
  color : FieldValue
  deriving DecidableEq, Repr

/-- Contents of a file read into memory. -/
abbrev Buffer := List Nat

/-- A file part as delivered by the form parser.  `originalFilename` and `mimetype`
are `string | null` in the parser's interface. -/
structure File where
  filepath : String
  originalFilename : Option String
  mimetype : Option String
  size : Nat
  deriving DecidableEq, Repr

/-- The value stored under one field name in the parsed `files` object: one
(possibly null) part, or an array of (possibly null) parts. -/
inductive FileArray where
  | single (file : Option File)
  | array (files : List (Option File))
  deriving DecidableEq, Repr

/-- The parsed `files` object as `Object.entries` enumerates it. -/
abbrev Files := List (String × FileArray)

/-- The record `formData` inserted into the `submissions` table. -/
structure Submission where
  id : String
  email : Option String
  order_number : Option String
  full_name : Option String
  vin : Option String
  make : Option String
  model : Option String
  year : Option String
  color : Option String
  created_at : String
  status : String
  deriving DecidableEq, Repr

/-- A row pushed onto `uploadedFiles` and inserted into the `uploaded_files` table. -/
structure FileRow where
  submission_id : String
  file_path : String
  file_type : String
  original_name : String
  file_size : Nat
  deriving DecidableEq, Repr

/-- The answer of `supabase.storage.from(..).upload(..)`: either `data` with the
stored `path`, or an `error`. -/
inductive UploadResponse where
  | data (path : String)
  | error (message : String)
  deriving DecidableEq, Repr

/-- The incoming request, as far as the handler inspects it directly. -/
structure Request where
  method : String
  deriving DecidableEq, Repr

/-- The JSON body of a response; `none` is a key that is not present. -/
structure Body where
  success : Option Bool := none
  submissionId : Option String := none
  message : Option String := none
  deriving DecidableEq, Repr

/-- What `res.status(..).json(..)` sends. -/
structure Response where
  status : Nat
  body : Body
  deriving DecidableEq, Repr

/-- One observable action of the handler on its surroundings. -/
inductive Effect where
  | formParse
  | insertSubmissions (table : String) (rows : List Submission)
  | readFileSync (filepath : String)
  | storageUpload (bucket : String) (key : String) (body : Buffer) (contentType : Option String)
  | insertFiles (table : String) (rows : List FileRow)
  | consoleError (label : String)
  deriving DecidableEq, Repr

/-- The surroundings of one invocation: the answer each external call gives.  The
database and the object store answer with `{data, error}` objects, as the handler
destructures them; `form.parse` and `fs.readFileSync` report failure by throwing. -/
structure World where
  /-- Outcome of `form.parse(req)`: a rejection, or the pair `[fields, files]`. -/
  formParse : Except JsError (Fields × Files)
  /-- Value of `uuidv4()`. -/
  uuidv4 : String
  /-- Value of `new Date().toISOString()`. -/
  toISOString : String
  /-- The `error` answered to the insert into `submissions`. -/
  submissionsInsert : List Submission → Option PostgrestError
  /-- Outcome of `fs.readFileSync(path)`. -/
  readFileSync : String → Except JsError Buffer
  /-- Answer of the object store to an upload of `body` under `key`. -/
  storageUpload : String → Buffer → Option String → UploadResponse
  /-- The `error` answered to the insert into `uploaded_files`. -/
  filesInsert : List FileRow → Option PostgrestError

/-! ## The handler -/

/-- The expression `Array.isArray(x) ? x[0] : x` applied to a field value. -/
def pick : FieldValue → Option String
  | .undefined => none
  | .scalar v => some v
  | .array vs => vs.head?

/-- The object literal `formData` (lines 34-46). -/
def formData (submissionId createdAt : String) (fields : Fields) : Submission :=
  { id := submissionId
    email := pick fields.email
    order_number := pick fields.orderNumber
    full_name := pick fields.fullName
    vin := pick fields.vin
    make := pick fields.make
    model := pick fields.model
    year := pick fields.year
    color := pick fields.color
    created_at := createdAt
    status := "pending" }

/-- The constant `fileExt` (line 68): `originalFilename.split('.').pop()`. -/
def fileExt (originalFilename : String) : Option String :=
  pop (split originalFilename '.')

/-- The constant `fileName` (line 69), the storage key of a part:
the template `${submissionId}/${fieldName}_${i + 1}.${fileExt}`.  The index is
rendered in decimal, as JavaScript renders an integer of this size. -/
def fileName (submissionId fieldName : String) (i : Nat) (originalFilename : String) : String :=
  submissionId ++ "/" ++ fieldName ++ "_" ++ toString (i + 1) ++ "." ++
    interpolate (fileExt originalFilename)

/-- The expression `fieldName.includes('photo') ? 'photo' : 'document'` (line 90). -/
def fileType (fieldName : String) : String :=
  if includes fieldName "photo" then "photo" else "document"

/-- The error raised by reading `.split` of a null `originalFilename`. -/
def nullFilenameError : JsError :=
  ⟨"Cannot read properties of null (reading \x27split\x27)"⟩

/-- Body of the inner loop for a non-null part `file = fileList[i]` (lines 68-93):
the effects performed, then either a thrown error, or `continue` (`none`), or the
row pushed onto `uploadedFiles`. -/
def processFile (w : World) (submissionId fieldName : String) (i : Nat) (file : File) :
    List Effect × Except JsError (Option FileRow) :=
  match file.originalFilename with
  | none => ([], .error nullFilenameError)
  | some originalFilename =>
    let key := fileName submissionId fieldName i originalFilename
    match w.readFileSync file.filepath with
    | .error e => ([.readFileSync file.filepath], .error e)
    | .ok fileBuffer =>
      match w.storageUpload key fileBuffer file.mimetype with
      | .error _ =>
        ([.readFileSync file.filepath,
          .storageUpload "vehicle-uploads" key fileBuffer file.mimetype,
          .consoleError "Upload error:"], .ok none)
      | .data path =>
        ([.readFileSync file.filepath,
          .storageUpload "vehicle-uploads" key fileBuffer file.mimetype],
         .ok (some
          { submission_id := submissionId
            file_path := path
            file_type := fileType fieldName
            original_name := originalFilename
            file_size := file.size }))

/-- The inner loop `for (let i = 0; i < fileList.length; i++)` (lines 64-94), from
index `i` on, threading `uploadedFiles`. -/
def fileListLoop (w : World) (submissionId fieldName : String) :
    Nat → List (Option File) → List FileRow → List Effect × Except JsError (List FileRow)
  | _, [], uploadedFiles => ([], .ok uploadedFiles)
  | i, none :: rest, uploadedFiles =>
    fileListLoop w submissionId fieldName (i + 1) rest uploadedFiles
  | i, some file :: rest, uploadedFiles =>
    match processFile w submissionId fieldName i file with
    | (t, .error e) => (t, .error e)
    | (t, .ok row) =>
      let next := fileListLoop w submissionId fieldName (i + 1) rest (uploadedFiles ++ row.toList)
      (t ++ next.1, next.2)

/-- The constant `fileList` (line 62): `Array.isArray(fileArray) ? fileArray : [fileArray]`. -/
def fileList : FileArray → List (Option File)
  | .array files => files
  | .single file => [file]

/-- The outer loop `for (const [fieldName, fileArray] of Object.entries(files))`
(lines 61-95), threading `uploadedFiles`. -/
def entriesLoop (w : World) (submissionId : String) :
    Files → List FileRow → List Effect × Except JsError (List FileRow)
  | [], uploadedFiles => ([], .ok uploadedFiles)
  | (fieldName, fileArray) :: rest, uploadedFiles =>
    match fileListLoop w submissionId fieldName 0 (fileList fileArray) uploadedFiles with
    | (t, .error e) => (t, .error e)
    | (t, .ok uploadedFiles1) =>
      let next := entriesLoop w submissionId rest uploadedFiles1
      (t ++ next.1, next.2)

/-- The step "Save file records" (lines 98-106). -/
def saveFileRecords (w : World) (uploadedFiles : List FileRow) : List Effect :=
  if uploadedFiles.length > 0 then
    match w.filesInsert uploadedFiles with
    | some _ => [.insertFiles "uploaded_files" uploadedFiles, .consoleError "Files table error:"]
    | none => [.insertFiles "uploaded_files" uploadedFiles]
  else []

/-- The response sent at the end of the `try` block (lines 111-115). -/
def successResponse (submissionId : String) : Response :=
  { status := 200
    body :=
      { success := some true
        submissionId := some submissionId
        message := some "Upload successful! You will receive an email confirmation shortly." } }

/-- The `try` block (lines 23-115): the effects performed and either the response
sent or the error thrown. -/
def tryBlock (w : World) : List Effect × Except JsError Response :=
  match w.formParse with
  | .error e => ([.formParse], .error e)
  | .ok (fields, files) =>
    let submissionId := w.uuidv4
    let record := formData submissionId w.toISOString fields
    match w.submissionsInsert [record] with
    | some dbError =>
      ([.formParse, .insertSubmissions "submissions" [record]],
       .error ⟨"Database error: " ++ dbError.message⟩)
    | none =>
      match entriesLoop w submissionId files [] with
      | (t, .error e) =>
        ([.formParse, .insertSubmissions "submissions" [record]] ++ t, .error e)
      | (t, .ok uploadedFiles) =>
        ([.formParse, .insertSubmissions "submissions" [record]] ++ t ++
            saveFileRecords w uploadedFiles,
         .ok (successResponse submissionId))

/-- The response sent by the `catch` block (lines 119-122). -/
def failureResponse (error : JsError) : Response :=
  { status := 500
    body :=
      { success := some false
        message := some (if error.message = "" then "Upload failed. Please try again."
                         else error.message) } }

/-- The exported `handler(req, res)`: the response sent and the trace of effects. -/
def handler (w : World) (req : Request) : Response × List Effect :=
  if req.method ≠ "POST" then
    ({ status := 405, body := { message := some "Method not allowed" } }, [])
  else
    match tryBlock w with
    | (t, .ok response) => (response, t)
    | (t, .error error) => (failureResponse error, t ++ [.consoleError "Upload error:"])


/-! ## The two loops as one pass over the file parts -/

/-- The file parts of the parsed `files` object in iteration order (fields in entry
order, parts in list order), each with its field name and 0-based position. -/
def parts (files : Files) : List (String × Nat × Option File) :=
  files.flatMap fun entry => ((fileList entry.2).enumFrom 0).map fun ip => (entry.1, ip.1, ip.2)

/-- What one iteration of the inner loop does with a part: nothing for a null part
(`if (!file) continue`), the loop body otherwise. -/
def partOutcome (w : World) (submissionId : String) :
    String × Nat × Option File → List Effect × Except JsError (Option FileRow)
  | (_, _, none) => ([], .ok none)
  | (fieldName, i, some file) => processFile w submissionId fieldName i file

/-- Sequential processing of a list of parts, stopping at the first throw. -/
def runParts (w : World) (submissionId : String) :
    List (String × Nat × Option File) → List FileRow →
      List Effect × Except JsError (List FileRow)
  | [], uploadedFiles => ([], .ok uploadedFiles)
  | p :: rest, uploadedFiles =>
    match partOutcome w submissionId p with
    | (t, .error e) => (t, .error e)
    | (t, .ok row) =>
      let next := runParts w submissionId rest (uploadedFiles ++ row.toList)
      (t ++ next.1, next.2)

/-- Whether processing a part throws: a non-null part without a filename
(`null.split`), or one whose temporary file cannot be read. -/
def raises (w : World) : Option File → Bool
  | none => false
  | some file =>
    match file.originalFilename, w.readFileSync file.filepath with
    | some _, .ok _ => false
    | _, _ => true

/-- The row owed to a part: one row for a non-null part whose upload was answered
without an error, none for a null part or a part whose upload was answered with an
error. -/
def partRow (w : World) (submissionId : String) : String × Nat × Option File → Option FileRow
  | (_, _, none) => none
  | (fieldName, i, some file) =>
    match file.originalFilename with
    | none => none
    | some name =>
      match w.readFileSync file.filepath with
      | .error _ => none
      | .ok buf =>
        match w.storageUpload (fileName submissionId fieldName i name) buf file.mimetype with
        | .error _ => none
        | .data path =>
          some
            { submission_id := submissionId
              file_path := path
              file_type := fileType fieldName
              original_name := name
              file_size := file.size }

/-- The effect is an insert into the file table. -/
def Effect.isInsertFiles : Effect → Bool
  | .insertFiles _ _ => true
  | _ => false

/-- The effect is an insert into the submission table. -/
def Effect.isInsertSubmissions : Effect → Bool
  | .insertSubmissions _ _ => true
  | _ => false

/-- The effect is an upload to the object store. -/
def Effect.isStorageUpload : Effect → Bool
  | .storageUpload _ _ _ _ => true
  | _ => false

/-- The effect is one of those of the file loop body: reading a temporary file,
an upload, or a log line. -/
def Effect.isFileLevel : Effect → Bool
  | .readFileSync _ => true
  | .storageUpload _ _ _ _ => true
  | .consoleError _ => true
  | _ => false

/-! ## Concrete requests and surroundings -/

/-- A POST request. -/
def postReq : Request := { method := "POST" }

/-- A GET request. -/
def getReq : Request := { method := "GET" }

/-- Form fields mixing the three shapes a value can have. -/
def sampleFields : Fields :=
  { email := .scalar "a@b.com"
    orderNumber := .undefined
    fullName := .array ["Ann Lee", "A. Lee"]
    vin := .array ["1FA"]
    make := .scalar "Ford"
    model := .undefined
    year := .array []
    color := .undefined }

/-- Two photos (with a null part between them) under one field and one document. -/
def sampleFiles : Files :=
  [ ("photo1", .array
      [ some { filepath := "/tmp/a", originalFilename := some "car.front.jpg",
               mimetype := some "image/jpeg", size := 12 },
        none,
        some { filepath := "/tmp/b", originalFilename := some "rear.png",
               mimetype := some "image/png", size := 7 } ]),
    ("title", .single
      (some { filepath := "/tmp/c", originalFilename := some "deed.pdf",
              mimetype := some "application/pdf", size := 3 })) ]

/-- Every call succeeds, except that the store refuses the second photo. -/
def sampleWorld : World :=
  { formParse := .ok (sampleFields, sampleFiles)
    uuidv4 := "s1"
    toISOString := "2024-01-01T00:00:00.000Z"
    submissionsInsert := fun _ => none
    readFileSync := fun _ => .ok [1, 2, 3]
    storageUpload := fun key _ _ =>
      if key = "s1/photo1_3.png" then .error "timeout" else .data key
    filesInsert := fun _ => some { message := "relation does not exist" } }

/-- The submission insert is answered with an error. -/
def dbErrorWorld : World :=
  { sampleWorld with submissionsInsert := fun _ => some { message := "duplicate key" } }

/-- A single part that was sent without a filename. -/
def nullNameWorld : World :=
  { sampleWorld with
    formParse := .ok (sampleFields,
      [("note", .array [some { filepath := "/tmp/n", originalFilename := none,
                               mimetype := some "text/plain", size := 5 }])]) }

/-- Two parts under one field; the temporary file of the second cannot be read. -/
def unreadableFiles : Files :=
  [ ("photo", .array
      [ some { filepath := "/tmp/a", originalFilename := some "a.jpg",
               mimetype := some "image/jpeg", size := 12 },
        some { filepath := "/tmp/gone", originalFilename := some "b.jpg",
               mimetype := some "image/jpeg", size := 9 } ]) ]

/-- Every call succeeds, except reading the temporary file `/tmp/gone`. -/
def unreadableWorld : World :=
  { sampleWorld with
    formParse := .ok (sampleFields, unreadableFiles)
    readFileSync := fun path =>
      if path = "/tmp/gone" then .error { message := "ENOENT: no such file or directory" }
      else .ok [1, 2, 3]
    storageUpload := fun key _ _ => .data key
    filesInsert := fun _ => none }

/-- One document under a field name with an empty path segment. -/
def slashFiles : Files :=
  [ ("docs//scan", .single
      (some { filepath := "/tmp/d", originalFilename := some "scan.pdf",
              mimetype := some "application/pdf", size := 4 })) ]

/-- The store answers with a path from which the empty segment is removed. -/
def slashWorld : World :=
  { sampleWorld with
    formParse := .ok (sampleFields, slashFiles)
    storageUpload := fun key _ _ =>
      if key = "s1/docs//scan_1.pdf" then .data "s1/docs/scan_1.pdf" else .data key
    filesInsert := fun _ => none }

/-! ## Strings: splitting, decimal numerals, substrings -/

theorem splitChars_ne_nil (c : Char) (l : List Char) : splitChars c l ≠ [] := by
  cases l with
  | nil => simp [splitChars]
  | cons x xs =>
    simp only [splitChars]
    split
    · simp
    · split <;> simp

theorem splitChars_of_not_mem (c : Char) (l : List Char) (h : c ∉ l) : splitChars c l = [l] := by
  induction l with
  | nil => rfl
  | cons x xs ih =>
    have hx : x ≠ c := fun hxc => h (by simp [hxc])
    have hxs : c ∉ xs := fun hm => h (List.mem_cons_of_mem _ hm)
    simp [splitChars, hx, ih hxs]

theorem splitChars_append_sep (c : Char) (rest : List Char) (pre : List Char) :
    splitChars c (pre ++ c :: rest) = splitChars c pre ++ splitChars c rest := by
  induction pre with
  | nil => simp [splitChars]
  | cons x xs ih =>
    by_cases hx : x = c
    · simp [splitChars, hx, ih]
    · have hcons : (x :: xs) ++ c :: rest = x :: (xs ++ c :: rest) := rfl
      rw [hcons]
      simp only [splitChars, hx, if_false]
      rw [ih]
      cases hs : splitChars c xs with
      | nil => exact absurd hs (splitChars_ne_nil c xs)
      | cons piece pieces => rfl

theorem splitChars_getLast (c : Char) (pre ext : List Char) (h : c ∉ ext) :
    (splitChars c (pre ++ c :: ext)).getLast? = some ext := by
  rw [splitChars_append_sep, List.getLast?_append_of_ne_nil _ (splitChars_ne_nil c ext),
    splitChars_of_not_mem c ext h]
  rfl

/-! decimal digits -/

theorem toDigitsCore_eq (fuel : Nat) : ∀ (n : Nat) (ds : List Char), 0 < n → n < fuel →
    Nat.toDigitsCore 10 fuel n ds = ((Nat.digits 10 n).reverse.map Nat.digitChar) ++ ds := by
  induction fuel with
  | zero => intro n ds _ h; omega
  | succ fuel ih =>
    intro n ds hn hf
    rw [Nat.digits_def' (by decide) hn]
    simp only [Nat.toDigitsCore]
    by_cases h0 : n / 10 = 0
    · simp [h0]
    · have hpos : 0 < n / 10 := Nat.pos_of_ne_zero h0
      have hlt : n / 10 < fuel := by omega
      simp [h0, ih (n / 10) _ hpos hlt]

theorem toString_data_pos (n : Nat) (hn : 0 < n) :
    (toString n).data = (Nat.digits 10 n).reverse.map Nat.digitChar := by
  show (Nat.toDigits 10 n) = _
  simp [Nat.toDigits, toDigitsCore_eq (n + 1) n [] hn (Nat.lt_succ_self n)]

theorem digitChar_ne_underscore (d : Nat) (hd : d < 10) : Nat.digitChar d ≠ '_' := by
  interval_cases d <;> decide

theorem digitChar_inj (a b : Nat) (ha : a < 10) (hb : b < 10)
    (h : Nat.digitChar a = Nat.digitChar b) : a = b := by
  interval_cases a <;> interval_cases b <;> first | rfl | (exact absurd h (by decide))

theorem underscore_not_mem_toString (n : Nat) (hn : 0 < n) : '_' ∉ (toString n).data := by
  rw [toString_data_pos n hn]
  intro h
  obtain ⟨d, hmem, hd⟩ := List.mem_map.mp h
  exact digitChar_ne_underscore d
    (Nat.digits_lt_base (by decide) (List.mem_reverse.mp hmem)) hd

theorem toString_inj_pos (n m : Nat) (hn : 0 < n) (hm : 0 < m)
    (h : (toString n).data = (toString m).data) : n = m := by
  rw [toString_data_pos n hn, toString_data_pos m hm] at h
  have hlen : (Nat.digits 10 n).reverse = (Nat.digits 10 m).reverse := by
    apply List.ext_getElem
    · simpa using congrArg List.length h
    · intro i h1 h2
      have h1' : i < ((Nat.digits 10 n).reverse.map Nat.digitChar).length := by simpa using h1
      have h2' : i < ((Nat.digits 10 m).reverse.map Nat.digitChar).length := by simpa using h2
      have hi : ((Nat.digits 10 n).reverse.map Nat.digitChar)[i]
          = ((Nat.digits 10 m).reverse.map Nat.digitChar)[i] := by
        simp only [h]
      simp only [List.getElem_map] at hi
      apply digitChar_inj _ _ _ _ hi
      · exact Nat.digits_lt_base (by decide) (List.mem_reverse.mp (List.getElem_mem _))
      · exact Nat.digits_lt_base (by decide) (List.mem_reverse.mp (List.getElem_mem _))
  exact Nat.digits_inj_iff.mp (List.reverse_injective hlen)

theorem not_mem_of_mem_splitChars (c : Char) (l : List Char) :
    ∀ piece ∈ splitChars c l, c ∉ piece := by
  induction l with
  | nil => intro piece hp; simp [splitChars] at hp; simp [hp]
  | cons x xs ih =>
    intro piece hp
    by_cases hx : x = c
    · simp only [splitChars, hx, if_true, List.mem_cons] at hp
      rcases hp with hp | hp
      · simp [hp]
      · exact ih piece hp
    · simp only [splitChars, hx, if_false] at hp
      cases hs : splitChars c xs with
      | nil => exact absurd hs (splitChars_ne_nil c xs)
      | cons first others =>
        rw [hs] at hp ih
        simp only [List.mem_cons] at hp
        rcases hp with hp | hp
        · subst hp
          intro hmem
          rcases List.mem_cons.mp hmem with h1 | h1
          · exact hx h1.symm
          · exact ih first (List.mem_cons_self _ _) h1
        · exact ih piece (List.mem_cons_of_mem _ hp)

theorem fileExt_spec (name : String) :
    ∃ piece : List Char, fileExt name = some (String.mk piece) ∧ '.' ∉ piece := by
  unfold fileExt pop split
  rw [List.getLast?_map]
  cases h : (splitChars '.' name.data).getLast? with
  | none =>
    rw [List.getLast?_eq_none_iff] at h
    exact absurd h (splitChars_ne_nil _ _)
  | some piece =>
    exact ⟨piece, rfl, not_mem_of_mem_splitChars '.' name.data piece (List.mem_of_getLast?_eq_some h)⟩

theorem fileExt_of_last_dot (pre ext : String) (h : '.' ∉ ext.data) :
    fileExt (pre ++ "." ++ ext) = some ext := by
  unfold fileExt pop split
  have hd : (pre ++ "." ++ ext).data = pre.data ++ '.' :: ext.data := by
    simp [String.data_append]
  rw [List.getLast?_map, hd, splitChars_getLast '.' pre.data ext.data h]
  rfl

theorem append_sep_cancel {c : Char} {l₁ l₂ r₁ r₂ : List Char}
    (h : l₁ ++ c :: r₁ = l₂ ++ c :: r₂) (h₁ : c ∉ r₁) (h₂ : c ∉ r₂) : l₁ = l₂ ∧ r₁ = r₂ := by
  rcases List.append_eq_append_iff.mp h with ⟨a, ha, hb⟩ | ⟨a, ha, hb⟩
  · cases a with
    | nil => simp at ha hb; exact ⟨ha.symm, hb⟩
    | cons x a =>
      simp only [List.cons_append, List.cons.injEq] at hb
      exact absurd (by rw [hb.2]; simp) h₁
  · cases a with
    | nil => simp at ha hb; exact ⟨ha, hb.symm⟩
    | cons x a =>
      simp only [List.cons_append, List.cons.injEq] at hb
      exact absurd (by rw [hb.2]; simp) h₂

theorem fileName_data (sid f : String) (i : Nat) (name : String) :
    (fileName sid f i name).data
      = ((sid.data ++ '/' :: f.data) ++ '_' :: (toString (i + 1)).data)
          ++ '.' :: (interpolate (fileExt name)).data := by
  simp [fileName, String.data_append]

theorem fileName_injective (sid f g : String) (i j : Nat) (name other : String)
    (h : fileName sid f i name = fileName sid g j other) : f = g ∧ i = j := by
  have hd := congrArg String.data h
  rw [fileName_data, fileName_data] at hd
  obtain ⟨p, hp, hpdot⟩ := fileExt_spec name
  obtain ⟨q, hq, hqdot⟩ := fileExt_spec other
  rw [hp, hq] at hd
  simp only [interpolate] at hd
  obtain ⟨h1, _⟩ := append_sep_cancel hd hpdot hqdot
  obtain ⟨h2, h3⟩ := append_sep_cancel h1
    (underscore_not_mem_toString (i + 1) (Nat.succ_pos i))
    (underscore_not_mem_toString (j + 1) (Nat.succ_pos j))
  have h4 : f.data = g.data := by
    have := List.append_cancel_left h2
    simpa using this
  have h5 := toString_inj_pos (i + 1) (j + 1) (Nat.succ_pos i) (Nat.succ_pos j) h3
  exact ⟨String.ext h4, by omega⟩

theorem includes_iff (s sub : String) :
    includes s sub = true ↔ ∃ pre post : String, s = pre ++ sub ++ post := by
  unfold includes
  rw [List.any_eq_true]
  constructor
  · rintro ⟨t, ht, hpre⟩
    rw [List.mem_tails] at ht
    rw [List.isPrefixOf_iff_prefix] at hpre
    obtain ⟨a, ha⟩ := ht
    obtain ⟨b, hb⟩ := hpre
    refine ⟨String.mk a, String.mk b, String.ext ?_⟩
    simp [String.data_append, ← ha, ← hb]
  · rintro ⟨pre, post, h⟩
    refine ⟨sub.data ++ post.data, ?_, ?_⟩
    · rw [List.mem_tails]
      exact ⟨pre.data, by rw [h]; simp [String.data_append]⟩
    · rw [List.isPrefixOf_iff_prefix]
      exact ⟨post.data, rfl⟩

theorem prefixed_ne_empty (m : String) : "Database error: " ++ m ≠ "" := by
  intro h
  have hd := congrArg String.data h
  rw [String.data_append] at hd
  have hl := congrArg List.length hd
  simp [List.length_append] at hl

/-! ## The loops -/

theorem fileListLoop_eq_runParts (w : World) (sid f : String) (ps : List (Option File)) :
    ∀ (i : Nat) (acc : List FileRow),
      fileListLoop w sid f i ps acc
        = runParts w sid ((ps.enumFrom i).map fun ip => (f, ip.1, ip.2)) acc := by
  induction ps with
  | nil => intro i acc; rfl
  | cons p rest ih =>
    intro i acc
    cases p with
    | none =>
      simp only [fileListLoop, List.enumFrom_cons, List.map_cons, runParts, partOutcome,
        Option.toList, List.append_nil, List.nil_append]
      exact ih (i + 1) acc
    | some file =>
      simp only [fileListLoop, List.enumFrom_cons, List.map_cons, runParts, partOutcome]
      rcases h : processFile w sid f i file with ⟨t, r⟩
      cases r with
      | error e => rfl
      | ok row => simp only [ih]

theorem runParts_append (w : World) (sid : String) (l₂ : List (String × Nat × Option File)) :
    ∀ (l₁ : List (String × Nat × Option File)) (acc : List FileRow),
      runParts w sid (l₁ ++ l₂) acc =
        match runParts w sid l₁ acc with
        | (t, .error e) => (t, .error e)
        | (t, .ok acc1) => (t ++ (runParts w sid l₂ acc1).1, (runParts w sid l₂ acc1).2) := by
  intro l₁
  induction l₁ with
  | nil => intro acc; simp [runParts]
  | cons p rest ih =>
    intro acc
    have hcons : (p :: rest) ++ l₂ = p :: (rest ++ l₂) := rfl
    rw [hcons]
    simp only [runParts]
    rcases h : partOutcome w sid p with ⟨t, r⟩
    cases r with
    | error e => rfl
    | ok row =>
      have hrec := ih (acc ++ row.toList)
      rcases h2 : runParts w sid rest (acc ++ row.toList) with ⟨t2, r2⟩
      rw [h2] at hrec
      cases r2 with
      | error e => simp only [hrec, h2]
      | ok acc1 => simp only [hrec, h2, List.append_assoc]

theorem entriesLoop_eq_runParts (w : World) (sid : String) (files : Files) :
    ∀ acc : List FileRow, entriesLoop w sid files acc = runParts w sid (parts files) acc := by
  induction files with
  | nil => intro acc; rfl
  | cons entry rest ih =>
    intro acc
    obtain ⟨f, arr⟩ := entry
    have hparts : parts ((f, arr) :: rest)
        = (((fileList arr).enumFrom 0).map fun ip => (f, ip.1, ip.2)) ++ parts rest := by
      simp [parts, List.flatMap_cons]
    rw [hparts, runParts_append, ← fileListLoop_eq_runParts]
    simp only [entriesLoop]
    rcases h : fileListLoop w sid f 0 (fileList arr) acc with ⟨t, r⟩
    cases r with
    | error e => rfl
    | ok acc1 => simp only [ih]

theorem partOutcome_of_not_raises (w : World) (sid : String) (p : String × Nat × Option File)
    (h : raises w p.2.2 = false) :
    (partOutcome w sid p).2 = .ok (partRow w sid p) := by
  obtain ⟨f, i, o⟩ := p
  cases o with
  | none => rfl
  | some file =>
    simp only [raises] at h
    simp only [partOutcome, processFile, partRow]
    cases hn : file.originalFilename with
    | none => simp [hn] at h
    | some name =>
      cases hr : w.readFileSync file.filepath with
      | error e => simp [hn, hr] at h
      | ok buf =>
        simp only []
        cases w.storageUpload (fileName sid f i name) buf file.mimetype <;> rfl

theorem partOutcome_of_raises (w : World) (sid : String) (p : String × Nat × Option File)
    (h : raises w p.2.2 = true) :
    ∃ e, (partOutcome w sid p).2 = .error e := by
  obtain ⟨f, i, o⟩ := p
  cases o with
  | none => simp [raises] at h
  | some file =>
    simp only [raises] at h
    simp only [partOutcome, processFile]
    cases hn : file.originalFilename with
    | none => exact ⟨_, rfl⟩
    | some name =>
      cases hr : w.readFileSync file.filepath with
      | error e => exact ⟨e, rfl⟩
      | ok buf => simp [hn, hr] at h

theorem partOutcome_trace_fileLevel (w : World) (sid : String) (p : String × Nat × Option File)
    (e : Effect) (he : e ∈ (partOutcome w sid p).1) : e.isFileLevel = true := by
  obtain ⟨f, i, o⟩ := p
  cases o with
  | none => simp [partOutcome] at he
  | some file =>
    simp only [partOutcome, processFile] at he
    cases hn : file.originalFilename with
    | none => simp [hn] at he
    | some name =>
      simp only [hn] at he
      cases hr : w.readFileSync file.filepath with
      | error err =>
        simp only [hr, List.mem_singleton] at he
        subst he; rfl
      | ok buf =>
        simp only [hr] at he
        cases hu : w.storageUpload (fileName sid f i name) buf file.mimetype with
        | error m =>
          simp only [hu, List.mem_cons, List.mem_singleton, List.not_mem_nil, or_false] at he
          rcases he with he | he | he <;> subst he <;> rfl
        | data path =>
          simp only [hu, List.mem_cons, List.mem_singleton, List.not_mem_nil, or_false] at he
          rcases he with he | he <;> subst he <;> rfl

theorem runParts_of_noThrow (w : World) (sid : String) :
    ∀ (l : List (String × Nat × Option File)) (acc : List FileRow),
      (∀ p ∈ l, raises w p.2.2 = false) →
      runParts w sid l acc
        = (l.flatMap (fun p => (partOutcome w sid p).1),
           .ok (acc ++ l.filterMap (partRow w sid))) := by
  intro l
  induction l with
  | nil => intro acc _; simp [runParts]
  | cons p rest ih =>
    intro acc h
    have hp := partOutcome_of_not_raises w sid p (h p (List.mem_cons_self _ _))
    have hrest := ih (acc ++ (partRow w sid p).toList)
      (fun q hq => h q (List.mem_cons_of_mem _ hq))
    rcases hpo : partOutcome w sid p with ⟨t, r⟩
    rw [hpo] at hp
    simp only at hp
    subst hp
    simp only [runParts, hpo, hrest, List.flatMap_cons, List.filterMap_cons]
    cases hrow : partRow w sid p <;> simp [Option.toList]

theorem runParts_trace_mem (w : World) (sid : String) :
    ∀ (l : List (String × Nat × Option File)) (acc : List FileRow) (e : Effect),
      e ∈ (runParts w sid l acc).1 → ∃ p ∈ l, e ∈ (partOutcome w sid p).1 := by
  intro l
  induction l with
  | nil => intro acc e he; simp [runParts] at he
  | cons p rest ih =>
    intro acc e he
    simp only [runParts] at he
    rcases hpo : partOutcome w sid p with ⟨t, r⟩
    rw [hpo] at he
    cases r with
    | error err =>
      simp only at he
      exact ⟨p, List.mem_cons_self _ _, by rw [hpo]; exact he⟩
    | ok row =>
      simp only [List.mem_append] at he
      rcases he with he | he
      · exact ⟨p, List.mem_cons_self _ _, by rw [hpo]; exact he⟩
      · obtain ⟨q, hq, hqe⟩ := ih _ e he
        exact ⟨q, List.mem_cons_of_mem _ hq, hqe⟩

theorem runParts_ok_noThrow (w : World) (sid : String) :
    ∀ (l : List (String × Nat × Option File)) (acc rows : List FileRow),
      (runParts w sid l acc).2 = .ok rows → ∀ p ∈ l, raises w p.2.2 = false := by
  intro l
  induction l with
  | nil => intro acc rows _ p hp; simp at hp
  | cons q rest ih =>
    intro acc rows h p hp
    simp only [runParts] at h
    rcases hpo : partOutcome w sid q with ⟨t, r⟩
    rw [hpo] at h
    cases r with
    | error err => simp at h
    | ok row =>
      simp only at h
      rcases List.mem_cons.mp hp with hpq | hpr
      · subst hpq
        cases hr : raises w p.2.2 with
        | false => rfl
        | true =>
          obtain ⟨e, he⟩ := partOutcome_of_raises w sid p hr
          rw [hpo] at he
          simp at he
      · exact ih _ rows h p hpr

theorem runParts_trace_fileLevel (w : World) (sid : String)
    (l : List (String × Nat × Option File)) (acc : List FileRow) (e : Effect)
    (he : e ∈ (runParts w sid l acc).1) : e.isFileLevel = true := by
  obtain ⟨p, _, hpe⟩ := runParts_trace_mem w sid l acc e he
  exact partOutcome_trace_fileLevel w sid p e hpe

theorem handler_ok (w : World) (req : Request) (fields : Fields) (files : Files)
    (hm : req.method = "POST") (hp : w.formParse = .ok (fields, files))
    (hi : w.submissionsInsert [formData w.uuidv4 w.toISOString fields] = none)
    (hnt : ∀ p ∈ parts files, raises w p.2.2 = false) :
    handler w req =
      (successResponse w.uuidv4,
        [.formParse,
          .insertSubmissions "submissions" [formData w.uuidv4 w.toISOString fields]]
          ++ (parts files).flatMap (fun p => (partOutcome w w.uuidv4 p).1)
          ++ saveFileRecords w ((parts files).filterMap (partRow w w.uuidv4))) := by
  simp only [handler, hm, ne_eq, not_true_eq_false, if_false, tryBlock, hp, hi,
    entriesLoop_eq_runParts, runParts_of_noThrow w w.uuidv4 (parts files) [] hnt,
    List.nil_append]

theorem handler_thrown (w : World) (req : Request) (fields : Fields) (files : Files)
    (hm : req.method = "POST") (hp : w.formParse = .ok (fields, files))
    (hi : w.submissionsInsert [formData w.uuidv4 w.toISOString fields] = none)
    (hr : ¬ ∀ p ∈ parts files, raises w p.2.2 = false) :
    ∃ err t,
      handler w req =
        (failureResponse err,
          [.formParse,
            .insertSubmissions "submissions" [formData w.uuidv4 w.toISOString fields]]
            ++ t ++ [.consoleError "Upload error:"])
      ∧ ∀ e ∈ t, e.isFileLevel = true ∧ ∃ p ∈ parts files, e ∈ (partOutcome w w.uuidv4 p).1 := by
  rcases hrun : runParts w w.uuidv4 (parts files) [] with ⟨t, r⟩
  have htr : ∀ e ∈ t, e.isFileLevel = true ∧ ∃ p ∈ parts files, e ∈ (partOutcome w w.uuidv4 p).1 := by
    intro e he
    have he2 : e ∈ (runParts w w.uuidv4 (parts files) []).1 := by rw [hrun]; exact he
    exact ⟨runParts_trace_fileLevel w _ _ _ e he2, runParts_trace_mem w _ _ _ e he2⟩
  cases r with
  | ok rows =>
    exact absurd (runParts_ok_noThrow w w.uuidv4 (parts files) [] rows (by rw [hrun])) hr
  | error err =>
    refine ⟨err, t, ?_, htr⟩
    simp only [handler, hm, ne_eq, not_true_eq_false, if_false, tryBlock, hp, hi,
      entriesLoop_eq_runParts, hrun]

theorem filter_insertSubmissions_of_fileLevel (t : List Effect)
    (h : ∀ e ∈ t, e.isFileLevel = true) : t.filter Effect.isInsertSubmissions = [] := by
  rw [List.filter_eq_nil_iff]
  intro e he
  have := h e he
  cases e <;> simp_all [Effect.isFileLevel, Effect.isInsertSubmissions]

theorem filter_insertFiles_of_fileLevel (t : List Effect)
    (h : ∀ e ∈ t, e.isFileLevel = true) : t.filter Effect.isInsertFiles = [] := by
  rw [List.filter_eq_nil_iff]
  intro e he
  have := h e he
  cases e <;> simp_all [Effect.isFileLevel, Effect.isInsertFiles]

theorem filter_insertSubmissions_saveFileRecords (w : World) (rows : List FileRow) :
    (saveFileRecords w rows).filter Effect.isInsertSubmissions = [] := by
  unfold saveFileRecords
  split
  · split <;> simp [Effect.isInsertSubmissions]
  · rfl

theorem filter_insertFiles_saveFileRecords (w : World) (rows : List FileRow) :
    (saveFileRecords w rows).filter Effect.isInsertFiles
      = if rows = [] then [] else [.insertFiles "uploaded_files" rows] := by
  unfold saveFileRecords
  cases rows with
  | nil => simp
  | cons r rs =>
    simp only [List.length_cons, gt_iff_lt, Nat.zero_lt_succ, if_true]
    split <;> simp [Effect.isInsertFiles]

theorem flatMap_partOutcome_fileLevel (w : World) (sid : String)
    (l : List (String × Nat × Option File)) :
    ∀ e ∈ l.flatMap (fun p => (partOutcome w sid p).1), e.isFileLevel = true := by
  intro e he
  obtain ⟨p, _, hpe⟩ := List.mem_flatMap.mp he
  exact partOutcome_trace_fileLevel w sid p e hpe

theorem partRow_eq_some (w : World) (sid f : String) (i : Nat) (o : Option File)
    (row : FileRow) (h : partRow w sid (f, i, o) = some row) :
    ∃ file name body path,
      o = some file ∧ file.originalFilename = some name
        ∧ w.readFileSync file.filepath = .ok body
        ∧ w.storageUpload (fileName sid f i name) body file.mimetype = .data path
        ∧ row = { submission_id := sid, file_path := path, file_type := fileType f,
                  original_name := name, file_size := file.size } := by
  cases o with
  | none => simp [partRow] at h
  | some file =>
    simp only [partRow] at h
    cases hn : file.originalFilename with
    | none => simp [hn] at h
    | some name =>
      simp only [hn] at h
      cases hr : w.readFileSync file.filepath with
      | error e => simp [hr] at h
      | ok body =>
        simp only [hr] at h
        cases hu : w.storageUpload (fileName sid f i name) body file.mimetype with
        | error m => simp [hu] at h
        | data path =>
          simp only [hu, Option.some.injEq] at h
          exact ⟨file, name, body, path, rfl, hn, hr, hu, h.symm⟩

theorem partRow_of_transferred (w : World) (sid f : String) (i : Nat) (file : File)
    (name : String) (body : Buffer) (path : String)
    (hn : file.originalFilename = some name) (hr : w.readFileSync file.filepath = .ok body)
    (hu : w.storageUpload (fileName sid f i name) body file.mimetype = .data path) :
    partRow w sid (f, i, some file)
      = some { submission_id := sid, file_path := path, file_type := fileType f,
               original_name := name, file_size := file.size } := by
  simp [partRow, hn, hr, hu]

theorem upload_mem_partOutcome (w : World) (sid f : String) (i : Nat) (o : Option File)
    (b k : String) (body : Buffer) (ct : Option String)
    (h : Effect.storageUpload b k body ct ∈ (partOutcome w sid (f, i, o)).1) :
    ∃ file name,
      o = some file ∧ file.originalFilename = some name
        ∧ w.readFileSync file.filepath = .ok body
        ∧ b = "vehicle-uploads" ∧ k = fileName sid f i name ∧ ct = file.mimetype := by
  cases o with
  | none => simp [partOutcome] at h
  | some file =>
    simp only [partOutcome, processFile] at h
    cases hn : file.originalFilename with
    | none => simp [hn] at h
    | some name =>
      simp only [hn] at h
      cases hr : w.readFileSync file.filepath with
      | error e => simp [hr] at h
      | ok buf =>
        simp only [hr] at h
        cases hu : w.storageUpload (fileName sid f i name) buf file.mimetype with
        | error m =>
          simp [hu] at h
          obtain ⟨h1, h2, h3, h4⟩ := h
          exact ⟨file, name, rfl, hn, by rw [h3]; exact hr, h1, h2, h4⟩
        | data path =>
          simp [hu] at h
          obtain ⟨h1, h2, h3, h4⟩ := h
          exact ⟨file, name, rfl, hn, by rw [h3]; exact hr, h1, h2, h4⟩

theorem upload_mem_of_readable (w : World) (sid f : String) (i : Nat) (file : File)
    (name : String) (body : Buffer)
    (hn : file.originalFilename = some name) (hr : w.readFileSync file.filepath = .ok body) :
    Effect.storageUpload "vehicle-uploads" (fileName sid f i name) body file.mimetype
      ∈ (partOutcome w sid (f, i, some file)).1 := by
  simp only [partOutcome, processFile, hn, hr]
  cases w.storageUpload (fileName sid f i name) body file.mimetype <;> simp

theorem handler_upload_mem (w : World) (req : Request) (fields : Fields) (files : Files)
    (hp : w.formParse = .ok (fields, files))
    (b k : String) (body : Buffer) (ct : Option String)
    (h : Effect.storageUpload b k body ct ∈ (handler w req).2) :
    ∃ p ∈ parts files, Effect.storageUpload b k body ct ∈ (partOutcome w w.uuidv4 p).1 := by
  by_cases hm : req.method = "POST"
  · cases hi : w.submissionsInsert [formData w.uuidv4 w.toISOString fields] with
    | some dbError =>
      simp [handler, hm, tryBlock, hp, hi] at h
    | none =>
      by_cases hnt : ∀ p ∈ parts files, raises w p.2.2 = false
      · rw [handler_ok w req fields files hm hp hi hnt] at h
        simp only [List.mem_append, List.mem_cons, List.mem_singleton, List.not_mem_nil,
          or_false, reduceCtorEq, false_or] at h
        rcases h with h | h
        · exact List.mem_flatMap.mp h
        · exfalso
          unfold saveFileRecords at h
          split at h
          · split at h <;> simp at h
          · simp at h
      · obtain ⟨err, t, hh, ht⟩ := handler_thrown w req fields files hm hp hi hnt
        rw [hh] at h
        simp only [List.mem_append, List.mem_cons, List.mem_singleton, List.not_mem_nil,
          or_false, reduceCtorEq, false_or] at h
        exact (ht _ h).2
  · simp [handler, hm] at h

theorem handler_insertFiles_mem (w : World) (req : Request) (fields : Fields) (files : Files)
    (hp : w.formParse = .ok (fields, files)) (tbl : String) (rows : List FileRow)
    (h : Effect.insertFiles tbl rows ∈ (handler w req).2) :
    tbl = "uploaded_files" ∧ rows = (parts files).filterMap (partRow w w.uuidv4) := by
  by_cases hm : req.method = "POST"
  · cases hi : w.submissionsInsert [formData w.uuidv4 w.toISOString fields] with
    | some dbError =>
      simp [handler, hm, tryBlock, hp, hi] at h
    | none =>
      by_cases hnt : ∀ p ∈ parts files, raises w p.2.2 = false
      · rw [handler_ok w req fields files hm hp hi hnt] at h
        simp only [List.mem_append, List.mem_cons, List.mem_singleton, List.not_mem_nil,
          or_false, reduceCtorEq, false_or] at h
        rcases h with h | h
        · have := flatMap_partOutcome_fileLevel w w.uuidv4 (parts files) _ h
          simp [Effect.isFileLevel] at this
        · unfold saveFileRecords at h
          split at h
          · split at h <;> simp at h <;> exact h
          · simp at h
      · obtain ⟨err, t, hh, ht⟩ := handler_thrown w req fields files hm hp hi hnt
        rw [hh] at h
        simp only [List.mem_append, List.mem_cons, List.mem_singleton, List.not_mem_nil,
          or_false, reduceCtorEq, false_or] at h
        have := (ht _ h).1
        simp [Effect.isFileLevel] at this
  · simp [handler, hm] at h

/-! ## The claims of the specification -/

/-- C9: a request whose method is not exactly "POST" is answered with status 405 and
the body `{message: "Method not allowed"}`, and the handler performs no effect at
all: it does not parse the body, insert a submission, upload a file or insert a file
row. -/
theorem handler_method_not_allowed (w : World) (req : Request) (h : req.method ≠ "POST") :
    handler w req
      = ({ status := 405, body := { message := some "Method not allowed" } }, []) := by
  simp [handler, h]

theorem handler_method_not_allowed_witness :
    getReq.method ≠ "POST" ∧
      handler sampleWorld getReq
        = ({ status := 405, body := { message := some "Method not allowed" } }, []) :=
  ⟨by decide, handler_method_not_allowed sampleWorld getReq (by decide)⟩

/-- C3: when the form parse succeeds and the submission insert is answered with an
error of message `m`, the response is 500 with body
`{success: false, message: "Database error: " + m}`, and the trace holds the parse,
the one submission insert and the log line only: no upload to the object store and
no insert into the file table. -/
theorem handler_submission_insert_error (w : World) (req : Request) (fields : Fields)
    (files : Files) (m : String)
    (hm : req.method = "POST") (hp : w.formParse = .ok (fields, files))
    (hi : w.submissionsInsert [formData w.uuidv4 w.toISOString fields] = some { message := m }) :
    (handler w req).1
        = { status := 500
            body := { success := some false, message := some ("Database error: " ++ m) } }
      ∧ (handler w req).2
        = [.formParse,
            .insertSubmissions "submissions" [formData w.uuidv4 w.toISOString fields],
            .consoleError "Upload error:"]
      ∧ ∀ e ∈ (handler w req).2, e.isStorageUpload = false ∧ e.isInsertFiles = false := by
  have hh : handler w req =
      (failureResponse ⟨"Database error: " ++ m⟩,
        [.formParse,
          .insertSubmissions "submissions" [formData w.uuidv4 w.toISOString fields],
          .consoleError "Upload error:"]) := by
    simp only [handler, hm, ne_eq, not_true_eq_false, if_false, tryBlock, hp, hi,
      List.cons_append, List.nil_append]
  refine ⟨?_, ?_, ?_⟩
  · rw [hh]
    simp only [failureResponse, prefixed_ne_empty m, if_false]
  · rw [hh]
  · rw [hh]
    intro e he
    simp only [List.mem_cons, List.mem_singleton, List.not_mem_nil, or_false] at he
    rcases he with he | he | he <;> subst he <;> exact ⟨rfl, rfl⟩

theorem handler_submission_insert_error_witness :
    (postReq.method = "POST"
      ∧ dbErrorWorld.formParse = .ok (sampleFields, sampleFiles)
      ∧ dbErrorWorld.submissionsInsert
          [formData dbErrorWorld.uuidv4 dbErrorWorld.toISOString sampleFields]
          = some { message := "duplicate key" })
    ∧ ((handler dbErrorWorld postReq).1
        = { status := 500
            body := { success := some false
                      message := some ("Database error: " ++ "duplicate key") } }
      ∧ (handler dbErrorWorld postReq).2
        = [.formParse,
            .insertSubmissions "submissions"
              [formData dbErrorWorld.uuidv4 dbErrorWorld.toISOString sampleFields],
            .consoleError "Upload error:"]
      ∧ ∀ e ∈ (handler dbErrorWorld postReq).2,
          e.isStorageUpload = false ∧ e.isInsertFiles = false) :=
  ⟨⟨rfl, rfl, rfl⟩,
    handler_submission_insert_error dbErrorWorld postReq sampleFields sampleFiles
      "duplicate key" rfl rfl rfl⟩

/-- C4: whenever the handler answers 200, exactly one insert into the submission
table was made during the request, into the table "submissions" and of a single
record; the `submissionId` of the response body is the `id` of that record, and the
record has status "pending". -/
theorem handler_200_submission_id (w : World) (req : Request)
    (h : (handler w req).1.status = 200) :
    ∃ record : Submission,
      (handler w req).2.filter Effect.isInsertSubmissions
          = [.insertSubmissions "submissions" [record]]
        ∧ (handler w req).1.body.submissionId = some record.id
        ∧ record.status = "pending" := by
  by_cases hm : req.method = "POST"
  · cases hp : w.formParse with
    | error e =>
      simp [handler, hm, tryBlock, hp, failureResponse] at h
    | ok parsed =>
      obtain ⟨fields, files⟩ := parsed
      cases hi : w.submissionsInsert [formData w.uuidv4 w.toISOString fields] with
      | some dbError =>
        simp [handler, hm, tryBlock, hp, hi, failureResponse] at h
      | none =>
        by_cases hnt : ∀ p ∈ parts files, raises w p.2.2 = false
        · have hh := handler_ok w req fields files hm hp hi hnt
          refine ⟨formData w.uuidv4 w.toISOString fields, ?_, ?_, rfl⟩
          · rw [hh]
            simp only [List.filter_append,
              filter_insertSubmissions_of_fileLevel _
                (flatMap_partOutcome_fileLevel w w.uuidv4 (parts files)),
              filter_insertSubmissions_saveFileRecords, List.append_nil]
            rfl
          · rw [hh]; rfl
        · obtain ⟨err, t, hh, _⟩ := handler_thrown w req fields files hm hp hi hnt
          rw [hh] at h
          simp [failureResponse] at h
  · simp [handler, hm] at h

theorem handler_200_submission_id_witness :
    (handler sampleWorld postReq).1.status = 200
    ∧ ∃ record : Submission,
      (handler sampleWorld postReq).2.filter Effect.isInsertSubmissions
          = [.insertSubmissions "submissions" [record]]
        ∧ (handler sampleWorld postReq).1.body.submissionId = some record.id
        ∧ record.status = "pending" :=
  ⟨by decide, handler_200_submission_id sampleWorld postReq (by decide)⟩

/-- C7: field normalisation is sequence-agnostic.  A POST whose parse succeeded always
goes on to insert the record built from the fields, whatever they are (no field is
required).  In that record, for each of the eight form fields (email, orderNumber,
fullName, vin, make, model, year, color) and every string `v`: the bare scalar `v`
and the one-element sequence `[v]` give the same record, with value `v` in the
field's column; a sequence `v :: vs` gives its first element `v`; an absent field
gives an undefined (`none`) value. -/
theorem field_normalisation (w : World) (req : Request) (fields : Fields) (files : Files)
    (hm : req.method = "POST") (hp : w.formParse = .ok (fields, files)) :
    (∃ rest, (handler w req).2
        = .formParse
          :: .insertSubmissions "submissions" [formData w.uuidv4 w.toISOString fields]
          :: rest)
    ∧ ∀ (sid ts v : String) (vs : List String) (fs : Fields),
      (formData sid ts { fs with email := .scalar v }
            = formData sid ts { fs with email := .array [v] }
          ∧ (formData sid ts { fs with email := .scalar v }).email = some v
          ∧ (formData sid ts { fs with email := .array (v :: vs) }).email = some v
          ∧ (formData sid ts { fs with email := .undefined }).email = none)
      ∧ (formData sid ts { fs with orderNumber := .scalar v }
            = formData sid ts { fs with orderNumber := .array [v] }
          ∧ (formData sid ts { fs with orderNumber := .scalar v }).order_number = some v
          ∧ (formData sid ts { fs with orderNumber := .array (v :: vs) }).order_number = some v
          ∧ (formData sid ts { fs with orderNumber := .undefined }).order_number = none)
      ∧ (formData sid ts { fs with fullName := .scalar v }
            = formData sid ts { fs with fullName := .array [v] }
          ∧ (formData sid ts { fs with fullName := .scalar v }).full_name = some v
          ∧ (formData sid ts { fs with fullName := .array (v :: vs) }).full_name = some v
          ∧ (formData sid ts { fs with fullName := .undefined }).full_name = none)
      ∧ (formData sid ts { fs with vin := .scalar v }
            = formData sid ts { fs with vin := .array [v] }
          ∧ (formData sid ts { fs with vin := .scalar v }).vin = some v
          ∧ (formData sid ts { fs with vin := .array (v :: vs) }).vin = some v
          ∧ (formData sid ts { fs with vin := .undefined }).vin = none)
      ∧ (formData sid ts { fs with make := .scalar v }
            = formData sid ts { fs with make := .array [v] }
          ∧ (formData sid ts { fs with make := .scalar v }).make = some v
          ∧ (formData sid ts { fs with make := .array (v :: vs) }).make = some v
          ∧ (formData sid ts { fs with make := .undefined }).make = none)
      ∧ (formData sid ts { fs with model := .scalar v }
            = formData sid ts { fs with model := .array [v] }
          ∧ (formData sid ts { fs with model := .scalar v }).model = some v
          ∧ (formData sid ts { fs with model := .array (v :: vs) }).model = some v
          ∧ (formData sid ts { fs with model := .undefined }).model = none)
      ∧ (formData sid ts { fs with year := .scalar v }
            = formData sid ts { fs with year := .array [v] }
          ∧ (formData sid ts { fs with year := .scalar v }).year = some v
          ∧ (formData sid ts { fs with year := .array (v :: vs) }).year = some v
          ∧ (formData sid ts { fs with year := .undefined }).year = none)
      ∧ (formData sid ts { fs with color := .scalar v }
            = formData sid ts { fs with color := .array [v] }
          ∧ (formData sid ts { fs with color := .scalar v }).color = some v
          ∧ (formData sid ts { fs with color := .array (v :: vs) }).color = some v
          ∧ (formData sid ts { fs with color := .undefined }).color = none) := by
  refine ⟨?_, ?_⟩
  · cases hi : w.submissionsInsert [formData w.uuidv4 w.toISOString fields] with
    | some dbError =>
      exact ⟨[.consoleError "Upload error:"], by
        simp only [handler, hm, ne_eq, not_true_eq_false, if_false, tryBlock, hp, hi,
          List.cons_append, List.nil_append]⟩
    | none =>
      by_cases hnt : ∀ p ∈ parts files, raises w p.2.2 = false
      · exact ⟨_, by rw [handler_ok w req fields files hm hp hi hnt]; rfl⟩
      · obtain ⟨err, t, hh, _⟩ := handler_thrown w req fields files hm hp hi hnt
        exact ⟨_, by rw [hh]; rfl⟩
  · intro sid ts v vs fs
    simp [formData, pick]

theorem field_normalisation_witness :
    (postReq.method = "POST" ∧ sampleWorld.formParse = .ok (sampleFields, sampleFiles))
    ∧ (handler sampleWorld postReq).2.take 2
        = [.formParse,
           .insertSubmissions "submissions"
            [formData sampleWorld.uuidv4 sampleWorld.toISOString sampleFields]]
    ∧ (formData "s1" "t" { sampleFields with vin := .scalar "1FA" }
          = formData "s1" "t" { sampleFields with vin := .array ["1FA"] }
        ∧ (formData "s1" "t" { sampleFields with vin := .scalar "1FA" }).vin = some "1FA"
        ∧ (formData "s1" "t" { sampleFields with vin := .array ("1FA" :: ["2FB"]) }).vin
            = some "1FA"
        ∧ (formData "s1" "t" { sampleFields with vin := .undefined }).vin = none) := by
  have h := field_normalisation sampleWorld postReq sampleFields sampleFiles rfl rfl
  refine ⟨⟨rfl, rfl⟩, ?_, ?_⟩
  · obtain ⟨rest, hrest⟩ := h.1
    rw [hrest]
    rfl
  · exact (h.2 "s1" "t" "1FA" ["2FB"] sampleFields).2.2.2.1

/-- C10: within one request the storage key is injective on file parts: two parts that
differ in field name or in position within their field's list get different keys
`submissionId/fieldName_(i+1).ext`, whatever the field names and the original
filenames are. -/
theorem storage_key_injective (submissionId : String) (f g : String) (i j : Nat)
    (name other : String) (h : f ≠ g ∨ i ≠ j) :
    fileName submissionId f i name ≠ fileName submissionId g j other := by
  intro heq
  obtain ⟨hf, hi⟩ := fileName_injective submissionId f g i j name other heq
  rcases h with h | h
  · exact h hf
  · exact h hi

theorem storage_key_injective_witness :
    ("photo" ≠ "photo_1.jpg" ∨ 10 ≠ 0)
    ∧ fileName "s1" "photo" 10 "a.b_1.jpg_1.jpg" ≠ fileName "s1" "photo_1.jpg" 0 "x.jpg" :=
  ⟨Or.inr (by decide),
    storage_key_injective "s1" "photo" "photo_1.jpg" 10 0 "a.b_1.jpg_1.jpg" "x.jpg"
      (Or.inr (by decide))⟩

/-- C2, as stated, fails: a POST whose parse and submission insert both succeed, with a
single file part that carries no filename, is answered with status 500 (reading
`.split` of the null filename throws inside the file loop and the `catch` block
answers). -/
theorem handler_file_failure_counterexample :
    postReq.method = "POST"
      ∧ nullNameWorld.formParse
          = .ok (sampleFields,
              [("note", .array [some { filepath := "/tmp/n", originalFilename := none,
                                       mimetype := some "text/plain", size := 5 }])])
      ∧ nullNameWorld.submissionsInsert
          [formData nullNameWorld.uuidv4 nullNameWorld.toISOString sampleFields] = none
      ∧ (handler nullNameWorld postReq).1
          = { status := 500
              body := { success := some false
                        message := some "Cannot read properties of null (reading \x27split\x27)" } } := by
  refine ⟨rfl, rfl, rfl, ?_⟩
  decide

/-- C2 (amended): for a POST whose parse succeeds and whose submission insert is
answered without an error, the response is 200 with `success = true` and the
submission id exactly when no exception is thrown while a file part is processed
(every non-null part has a filename and a readable temporary file), whatever the
object store answers to the uploads and whatever is answered to the bulk insert of
the file rows; an exception thrown in the file loop gives status 500. -/
theorem handler_success_iff_no_throw (w : World) (req : Request) (fields : Fields)
    (files : Files)
    (hm : req.method = "POST") (hp : w.formParse = .ok (fields, files))
    (hi : w.submissionsInsert [formData w.uuidv4 w.toISOString fields] = none) :
    ((∀ p ∈ parts files, raises w p.2.2 = false) →
        (handler w req).1.status = 200
          ∧ (handler w req).1.body.success = some true
          ∧ (handler w req).1.body.submissionId = some w.uuidv4)
      ∧ ((¬ ∀ p ∈ parts files, raises w p.2.2 = false) →
          (handler w req).1.status = 500
            ∧ (handler w req).1.body.success = some false) := by
  constructor
  · intro hnt
    rw [handler_ok w req fields files hm hp hi hnt]
    exact ⟨rfl, rfl, rfl⟩
  · intro hnt
    obtain ⟨err, t, hh, _⟩ := handler_thrown w req fields files hm hp hi hnt
    rw [hh]
    exact ⟨rfl, rfl⟩

theorem handler_success_iff_no_throw_witness :
    (postReq.method = "POST"
      ∧ sampleWorld.formParse = .ok (sampleFields, sampleFiles)
      ∧ sampleWorld.submissionsInsert
          [formData sampleWorld.uuidv4 sampleWorld.toISOString sampleFields] = none
      ∧ ∀ p ∈ parts sampleFiles, raises sampleWorld p.2.2 = false)
    ∧ (handler sampleWorld postReq).1.status = 200
    ∧ (handler sampleWorld postReq).1.body.success = some true
    ∧ (handler sampleWorld postReq).1.body.submissionId = some sampleWorld.uuidv4 :=
  ⟨⟨rfl, rfl, rfl, by decide⟩,
    (handler_success_iff_no_throw sampleWorld postReq sampleFields sampleFiles
      rfl rfl rfl).1 (by decide)⟩

/-- C1, as stated, fails: in a POST whose parse and submission insert succeed, with two
parts under one field, the first part is uploaded without an error, so the list of
rows owed is not empty; reading the temporary file of the second part throws, and no
insert into the file table is made at all. -/
theorem file_rows_counterexample :
    postReq.method = "POST"
      ∧ unreadableWorld.formParse = .ok (sampleFields, unreadableFiles)
      ∧ unreadableWorld.submissionsInsert
          [formData unreadableWorld.uuidv4 unreadableWorld.toISOString sampleFields] = none
      ∧ Effect.storageUpload "vehicle-uploads" "s1/photo_1.jpg" [1, 2, 3] (some "image/jpeg")
          ∈ (handler unreadableWorld postReq).2
      ∧ unreadableWorld.storageUpload "s1/photo_1.jpg" [1, 2, 3] (some "image/jpeg")
          = .data "s1/photo_1.jpg"
      ∧ (parts unreadableFiles).filterMap (partRow unreadableWorld unreadableWorld.uuidv4)
          = [{ submission_id := "s1", file_path := "s1/photo_1.jpg", file_type := "photo",
               original_name := "a.jpg", file_size := 12 }]
      ∧ (handler unreadableWorld postReq).2.filter Effect.isInsertFiles = [] := by
  refine ⟨rfl, rfl, rfl, ?_, rfl, ?_, ?_⟩ <;> decide

/-- C1 (amended): for a POST whose parse and submission insert succeed and in which no
exception is thrown while a file part is processed, the rows collected by the file
loop are exactly one row per non-null part whose upload was answered without an
error, in iteration order (fields in entry order, parts in list order); null parts
and parts whose upload was answered with an error contribute no row.  When that list
is not empty it is passed in exactly one insert into "uploaded_files", and when it is
empty no insert into the file table is made. -/
theorem file_rows_collected (w : World) (req : Request) (fields : Fields) (files : Files)
    (hm : req.method = "POST") (hp : w.formParse = .ok (fields, files))
    (hi : w.submissionsInsert [formData w.uuidv4 w.toISOString fields] = none)
    (hnt : ∀ p ∈ parts files, raises w p.2.2 = false) :
    (entriesLoop w w.uuidv4 files []).2
        = .ok ((parts files).filterMap (partRow w w.uuidv4))
      ∧ ((parts files).filterMap (partRow w w.uuidv4) ≠ [] →
          (handler w req).2.filter Effect.isInsertFiles
            = [.insertFiles "uploaded_files" ((parts files).filterMap (partRow w w.uuidv4))])
      ∧ ((parts files).filterMap (partRow w w.uuidv4) = [] →
          (handler w req).2.filter Effect.isInsertFiles = []) := by
  have hfilter : (handler w req).2.filter Effect.isInsertFiles
      = if (parts files).filterMap (partRow w w.uuidv4) = [] then []
        else [.insertFiles "uploaded_files" ((parts files).filterMap (partRow w w.uuidv4))] := by
    rw [handler_ok w req fields files hm hp hi hnt]
    simp only [List.filter_append,
      filter_insertFiles_of_fileLevel _
        (flatMap_partOutcome_fileLevel w w.uuidv4 (parts files)),
      filter_insertFiles_saveFileRecords, List.append_nil]
    simp [List.filter, Effect.isInsertFiles]
  refine ⟨?_, ?_, ?_⟩
  · rw [entriesLoop_eq_runParts, runParts_of_noThrow w w.uuidv4 (parts files) [] hnt]
    simp
  · intro hne
    rw [hfilter, if_neg hne]
  · intro he
    rw [hfilter, if_pos he]

theorem file_rows_collected_witness :
    (postReq.method = "POST"
      ∧ sampleWorld.formParse = .ok (sampleFields, sampleFiles)
      ∧ sampleWorld.submissionsInsert
          [formData sampleWorld.uuidv4 sampleWorld.toISOString sampleFields] = none
      ∧ ∀ p ∈ parts sampleFiles, raises sampleWorld p.2.2 = false)
    ∧ (parts sampleFiles).filterMap (partRow sampleWorld sampleWorld.uuidv4)
        = [{ submission_id := "s1", file_path := "s1/photo1_1.jpg", file_type := "photo",
             original_name := "car.front.jpg", file_size := 12 },
           { submission_id := "s1", file_path := "s1/title_1.pdf", file_type := "document",
             original_name := "deed.pdf", file_size := 3 }]
    ∧ (entriesLoop sampleWorld sampleWorld.uuidv4 sampleFiles []).2
        = .ok ((parts sampleFiles).filterMap (partRow sampleWorld sampleWorld.uuidv4))
    ∧ (handler sampleWorld postReq).2.filter Effect.isInsertFiles
        = [.insertFiles "uploaded_files"
            ((parts sampleFiles).filterMap (partRow sampleWorld sampleWorld.uuidv4))] := by
  have h := file_rows_collected sampleWorld postReq sampleFields sampleFiles rfl rfl rfl
    (by decide)
  exact ⟨⟨rfl, rfl, rfl, by decide⟩, by decide, h.1, h.2.1 (by decide)⟩

/-- C5: in a POST whose parse and submission insert succeed, every upload the handler
makes is the upload of a non-null part at some 0-based position `i` of some field
`f`: its body is the content of that part, its bucket is "vehicle-uploads", its key
is the `fileName` of the part and its content type is the declared content type of
the part; when no part throws, every non-null part is uploaded so.  For an original
filename `pre ++ "." ++ ext` in which `ext` holds no '.', so that `ext` is what
follows the last '.', that key is
`submissionId + "/" + f + "_" + decimal(i+1) + "." + ext`. -/
theorem upload_key_of_part (w : World) (req : Request) (fields : Fields) (files : Files)
    (hm : req.method = "POST") (hp : w.formParse = .ok (fields, files))
    (hi : w.submissionsInsert [formData w.uuidv4 w.toISOString fields] = none) :
    (∀ (b k : String) (body : Buffer) (ct : Option String),
        Effect.storageUpload b k body ct ∈ (handler w req).2 →
        ∃ f i file name,
          (f, i, some file) ∈ parts files ∧ file.originalFilename = some name
            ∧ w.readFileSync file.filepath = .ok body
            ∧ b = "vehicle-uploads" ∧ k = fileName w.uuidv4 f i name ∧ ct = file.mimetype)
      ∧ ((∀ p ∈ parts files, raises w p.2.2 = false) →
          ∀ f i file name body,
            (f, i, some file) ∈ parts files → file.originalFilename = some name →
            w.readFileSync file.filepath = .ok body →
            Effect.storageUpload "vehicle-uploads" (fileName w.uuidv4 f i name) body
              file.mimetype ∈ (handler w req).2)
      ∧ ∀ (f : String) (i : Nat) (pre ext : String), '.' ∉ ext.data →
          fileName w.uuidv4 f i (pre ++ "." ++ ext)
            = w.uuidv4 ++ "/" ++ f ++ "_" ++ toString (i + 1) ++ "." ++ ext := by
  refine ⟨?_, ?_, ?_⟩
  · intro b k body ct h
    obtain ⟨p, hp1, hp2⟩ := handler_upload_mem w req fields files hp b k body ct h
    obtain ⟨f, i, o⟩ := p
    obtain ⟨file, name, ho, hn, hr, hb, hk, hc⟩ :=
      upload_mem_partOutcome w w.uuidv4 f i o b k body ct hp2
    subst ho
    exact ⟨f, i, file, name, hp1, hn, hr, hb, hk, hc⟩
  · intro hnt f i file name body hmem hn hr
    rw [handler_ok w req fields files hm hp hi hnt]
    apply List.mem_append_left
    apply List.mem_append_right
    exact List.mem_flatMap.mpr ⟨(f, i, some file), hmem,
      upload_mem_of_readable w w.uuidv4 f i file name body hn hr⟩
  · intro f i pre ext hext
    simp only [fileName, fileExt_of_last_dot pre ext hext, interpolate]

theorem upload_key_of_part_witness :
    (postReq.method = "POST"
      ∧ sampleWorld.formParse = .ok (sampleFields, sampleFiles)
      ∧ sampleWorld.submissionsInsert
          [formData sampleWorld.uuidv4 sampleWorld.toISOString sampleFields] = none)
    ∧ Effect.storageUpload "vehicle-uploads" ("s1" ++ "/" ++ "photo1" ++ "_" ++ toString (0 + 1)
          ++ "." ++ "jpg") [1, 2, 3] (some "image/jpeg") ∈ (handler sampleWorld postReq).2 := by
  have h := upload_key_of_part sampleWorld postReq sampleFields sampleFiles rfl rfl rfl
  refine ⟨⟨rfl, rfl, rfl⟩, ?_⟩
  have hkey := h.2.2 "photo1" 0 "car.front" "jpg" (by decide)
  have hup := h.2.1 (by decide) "photo1" 0
    { filepath := "/tmp/a", originalFilename := some "car.front.jpg",
      mimetype := some "image/jpeg", size := 12 }
    "car.front.jpg" [1, 2, 3] (by decide) rfl rfl
  have hname : ("car.front" : String) ++ "." ++ "jpg" = "car.front.jpg" := by decide
  rw [hname] at hkey
  rw [hkey] at hup
  exact hup

/-- C6, as stated, fails: a part under the field name "docs//scan" is uploaded under the
derived key "s1/docs//scan_1.pdf"; the store answers without an error and with the
path "s1/docs/scan_1.pdf", and the row recorded for the part has that answered path as
its `file_path`, not the derived key. -/
theorem file_row_path_counterexample :
    fileName slashWorld.uuidv4 "docs//scan" 0 "scan.pdf" = "s1/docs//scan_1.pdf"
      ∧ Effect.storageUpload "vehicle-uploads" "s1/docs//scan_1.pdf" [1, 2, 3]
          (some "application/pdf") ∈ (handler slashWorld postReq).2
      ∧ slashWorld.storageUpload "s1/docs//scan_1.pdf" [1, 2, 3] (some "application/pdf")
          = .data "s1/docs/scan_1.pdf"
      ∧ (handler slashWorld postReq).2.filter Effect.isInsertFiles
          = [.insertFiles "uploaded_files"
              [{ submission_id := "s1", file_path := "s1/docs/scan_1.pdf",
                 file_type := "document", original_name := "scan.pdf", file_size := 4 }]]
      ∧ ("s1/docs/scan_1.pdf" : String) ≠ "s1/docs//scan_1.pdf" := by
  refine ⟨?_, ?_, rfl, ?_, ?_⟩ <;> decide

/-- C6 (amended): for every file part that is transferred successfully (its filename
and temporary file are read and the store answers its upload with a path and no
error) the loop body appends a row, and that row has `submission_id` equal to the
submission id of the request, `file_path` equal to the path the store answered (which
is the derived key `fileName` whenever the store answers with the key it was given),
`original_name` equal to the original filename of the part and `file_size` equal to
the size of the part.  Whenever the handler inserts rows into the file table during a
request in which the part arrived, that row is among them. -/
theorem file_row_of_transferred_part (w : World) (f : String) (i : Nat) (file : File)
    (name : String) (body : Buffer) (path : String)
    (hn : file.originalFilename = some name)
    (hr : w.readFileSync file.filepath = .ok body)
    (hu : w.storageUpload (fileName w.uuidv4 f i name) body file.mimetype = .data path) :
    ∃ row : FileRow,
      (processFile w w.uuidv4 f i file).2 = .ok (some row)
        ∧ row.submission_id = w.uuidv4
        ∧ row.file_path = path
        ∧ (path = fileName w.uuidv4 f i name → row.file_path = fileName w.uuidv4 f i name)
        ∧ row.original_name = name
        ∧ row.file_size = file.size
        ∧ ∀ (req : Request) (fields : Fields) (files : Files) (tbl : String)
            (rows : List FileRow),
            w.formParse = .ok (fields, files) → (f, i, some file) ∈ parts files →
            Effect.insertFiles tbl rows ∈ (handler w req).2 →
            tbl = "uploaded_files" ∧ row ∈ rows := by
  have hrow := partRow_of_transferred w w.uuidv4 f i file name body path hn hr hu
  refine ⟨{ submission_id := w.uuidv4, file_path := path, file_type := fileType f,
            original_name := name, file_size := file.size }, ?_, rfl, rfl, ?_, rfl, rfl, ?_⟩
  · simp only [processFile, hn, hr, hu]
  · intro h; exact h
  · intro req fields files tbl rows hp hmem hins
    obtain ⟨htbl, hrows⟩ := handler_insertFiles_mem w req fields files hp tbl rows hins
    refine ⟨htbl, ?_⟩
    rw [hrows]
    exact List.mem_filterMap.mpr ⟨(f, i, some file), hmem, hrow⟩

theorem file_row_of_transferred_part_witness :
    (({ filepath := "/tmp/a", originalFilename := some "a.jpg",
        mimetype := some "image/jpeg", size := 12 } : File).originalFilename = some "a.jpg"
      ∧ unreadableWorld.readFileSync "/tmp/a" = .ok [1, 2, 3]
      ∧ unreadableWorld.storageUpload (fileName unreadableWorld.uuidv4 "photo" 0 "a.jpg")
          [1, 2, 3] (some "image/jpeg") = .data "s1/photo_1.jpg")
    ∧ ∃ row : FileRow,
        (processFile unreadableWorld unreadableWorld.uuidv4 "photo" 0
            { filepath := "/tmp/a", originalFilename := some "a.jpg",
              mimetype := some "image/jpeg", size := 12 }).2 = .ok (some row)
        ∧ row.submission_id = "s1" ∧ row.file_path = "s1/photo_1.jpg"
        ∧ row.original_name = "a.jpg" ∧ row.file_size = 12 := by
  obtain ⟨row, h1, h2, h3, _, h5, h6, _⟩ :=
    file_row_of_transferred_part unreadableWorld "photo" 0
      { filepath := "/tmp/a", originalFilename := some "a.jpg",
        mimetype := some "image/jpeg", size := 12 }
      "a.jpg" [1, 2, 3] "s1/photo_1.jpg" rfl rfl (by decide)
  exact ⟨⟨rfl, rfl, by decide⟩, row, h1, h2, h3, h5, h6⟩

/-- C8: every row the handler inserts into the file table is the row of a non-null part
that arrived under some field name `f`, and its `file_type` is "photo" if and only if
`f` contains the substring "photo" (compared character by character, so
case-sensitively), and "document" otherwise. -/
theorem file_type_of_row (w : World) (req : Request) (fields : Fields) (files : Files)
    (hp : w.formParse = .ok (fields, files)) (tbl : String) (rows : List FileRow)
    (hins : Effect.insertFiles tbl rows ∈ (handler w req).2)
    (row : FileRow) (hrow : row ∈ rows) :
    ∃ f i file,
      (f, i, some file) ∈ parts files
        ∧ partRow w w.uuidv4 (f, i, some file) = some row
        ∧ (row.file_type = "photo" ↔ ∃ pre post : String, f = pre ++ "photo" ++ post)
        ∧ ((¬ ∃ pre post : String, f = pre ++ "photo" ++ post) →
            row.file_type = "document") := by
  obtain ⟨_, hrows⟩ := handler_insertFiles_mem w req fields files hp tbl rows hins
  rw [hrows] at hrow
  obtain ⟨p, hpmem, hprow⟩ := List.mem_filterMap.mp hrow
  obtain ⟨f, i, o⟩ := p
  obtain ⟨file, name, body, path, ho, _, _, _, hr⟩ :=
    partRow_eq_some w w.uuidv4 f i o row hprow
  subst ho
  refine ⟨f, i, file, hpmem, hprow, ?_, ?_⟩
  · rw [hr, ← includes_iff]
    simp only [fileType]
    cases includes f "photo" <;> simp
  · intro hno
    rw [← includes_iff] at hno
    rw [hr]
    simp only [fileType]
    cases hinc : includes f "photo" with
    | false => rfl
    | true => exact absurd hinc hno

theorem file_type_of_row_witness :
    (sampleWorld.formParse = .ok (sampleFields, sampleFiles)
      ∧ Effect.insertFiles "uploaded_files"
          ((parts sampleFiles).filterMap (partRow sampleWorld sampleWorld.uuidv4))
          ∈ (handler sampleWorld postReq).2
      ∧ ({ submission_id := "s1", file_path := "s1/photo1_1.jpg", file_type := "photo",
           original_name := "car.front.jpg", file_size := 12 } : FileRow)
          ∈ (parts sampleFiles).filterMap (partRow sampleWorld sampleWorld.uuidv4))
    ∧ ∃ f i file,
      (f, i, some file) ∈ parts sampleFiles
        ∧ partRow sampleWorld sampleWorld.uuidv4 (f, i, some file)
            = some { submission_id := "s1", file_path := "s1/photo1_1.jpg",
                     file_type := "photo", original_name := "car.front.jpg",
                     file_size := 12 }
        ∧ (({ submission_id := "s1", file_path := "s1/photo1_1.jpg", file_type := "photo",
              original_name := "car.front.jpg", file_size := 12 } : FileRow).file_type
              = "photo"
            ↔ ∃ pre post : String, f = pre ++ "photo" ++ post)
        ∧ ((¬ ∃ pre post : String, f = pre ++ "photo" ++ post) →
            ({ submission_id := "s1", file_path := "s1/photo1_1.jpg", file_type := "photo",
               original_name := "car.front.jpg", file_size := 12 } : FileRow).file_type
              = "document") :=
  ⟨⟨rfl, by decide, by decide⟩,
    file_type_of_row sampleWorld postReq sampleFields sampleFiles rfl "uploaded_files"
      ((parts sampleFiles).filterMap (partRow sampleWorld sampleWorld.uuidv4)) (by decide)
      { submission_id := "s1", file_path := "s1/photo1_1.jpg", file_type := "photo",
        original_name := "car.front.jpg", file_size := 12 } (by decide)⟩

end Upload
